import Mathlib

/-
Verification of the rss-scraper repository (`scrape_rss.py`) against its
natural-language specification.  The Python script is shallowly embedded:
strings are Lean `String`s (lists of Unicode scalar values), the CSV store
is a list of rows, per-source fetching is a list of already-retrieved raw
items (network retrieval and markup parsing are external library
capabilities in the spec's own scoping), and Python exceptions are
modelled with `Option`/`Except`.  Every definition follows the Python
source line by line; external library calls (`html.unescape`,
`unicodedata.normalize`, `dateutil` parsing, BeautifulSoup text
extraction, `pytz` timezone conversion) are modelled to the extent the
script exercises them, with the restriction stated in the doc comment of
the corresponding definition.
-/

namespace Scraper

/-! ## Python string primitives -/

/-- Whitespace in the sense of Python's `str.strip()` and the regex class
`\s` on `str` patterns: ASCII whitespace plus the Unicode whitespace
code points. -/
def isPySpace (c : Char) : Bool :=
  c == ' ' || c == '\t' || c == '\n' || c == '\r' ||
  c.toNat == 0x0B || c.toNat == 0x0C ||
  (0x1C ≤ c.toNat && c.toNat ≤ 0x1F) || c.toNat == 0x85 || c.toNat == 0xA0 ||
  c.toNat == 0x1680 || (0x2000 ≤ c.toNat && c.toNat ≤ 0x200A) ||
  c.toNat == 0x2028 || c.toNat == 0x2029 || c.toNat == 0x202F ||
  c.toNat == 0x205F || c.toNat == 0x3000

/-- Python `str.strip()` on a list of characters. -/
def pyStripList (l : List Char) : List Char :=
  ((l.dropWhile isPySpace).reverse.dropWhile isPySpace).reverse

/-- Python `str.strip()`. -/
def pyStrip (s : String) : String :=
  ⟨pyStripList s.data⟩

/-- One pass of `re.sub` collapsing whitespace: every maximal run of
whitespace becomes a single space.  The boolean records whether the
previous character belonged to a whitespace run. -/
def collapseWsAux : Bool → List Char → List Char
  | _, [] => []
  | prevWs, c :: cs =>
    if isPySpace c then
      (if prevWs then [] else [' ']) ++ collapseWsAux true cs
    else
      c :: collapseWsAux false cs

/-- The whitespace-collapsing substitution of `clean_text` (line 109 of
the script). -/
def collapseWs (l : List Char) : List Char :=
  collapseWsAux false l

/-- One pass of the question-mark-run removal (line 113 of the script): a
question mark survives exactly when neither neighbour is a question
mark. -/
def rmQRunsAux : Bool → List Char → List Char
  | _, [] => []
  | prevQ, c :: cs =>
    if c == '?' then
      if prevQ || cs.head? == some '?' then rmQRunsAux true cs
      else '?' :: rmQRunsAux true cs
    else c :: rmQRunsAux false cs

/-- Removal of runs of two or more question marks. -/
def rmQRuns (l : List Char) : List Char :=
  rmQRunsAux false l

/-- Length of the first pattern in `pats` that is a (non-empty) prefix of
`l`; `0` when none matches. -/
def matchLen (pats : List (List Char)) (l : List Char) : Nat :=
  match pats with
  | [] => 0
  | p :: ps => if !p.isEmpty && p.isPrefixOf l then p.length else matchLen ps l

/-- Single left-to-right scan replacing each first-matching pattern by
`rep` and continuing after the replacement (never rescanning it).  This
is the semantics shared by Python's `str.replace` (for a single pattern)
and `re.sub` with an alternation of literal patterns.  The fuel is
decremented once per step; since every step consumes at least one input
character, fuel equal to the input length is always sufficient. -/
def subPatsF (pats : List (List Char)) (rep : List Char) : Nat → List Char → List Char
  | 0, l => l
  | _ + 1, [] => []
  | fuel + 1, c :: cs =>
    let n := matchLen pats (c :: cs)
    if n = 0 then c :: subPatsF pats rep fuel cs
    else rep ++ subPatsF pats rep fuel ((c :: cs).drop n)

/-- Replace every occurrence of one of `pats` by `rep`, scanning left to
right. -/
def subPats (pats : List (List Char)) (rep : List Char) (l : List Char) : List Char :=
  subPatsF pats rep l.length l

/-- Python `text.replace(pat, rep)` (all occurrences, left to right,
without rescanning the replacement). -/
def replaceStr (s pat rep : String) : String :=
  ⟨subPats [pat.data] rep.data s.data⟩

/-- Python's substring containment `pat in s`, on character lists. -/
def containsSubL (pat : List Char) : List Char → Bool
  | [] => pat.isPrefixOf []
  | c :: cs => pat.isPrefixOf (c :: cs) || containsSubL pat cs

/-- Python's substring containment `pat in s`. -/
def strContains (s pat : String) : Bool :=
  containsSubL pat.data s.data

/-- Index of the first occurrence of `s` in a list of strings. -/
def idxOf : List String → String → Option Nat
  | [], _ => none
  | c :: cs, s => if c = s then some 0 else (idxOf cs s).map (· + 1)

/-- Collect a list of optional values; `none` if any entry is missing. -/
def seqOpts : List (Option String) → Option (List String)
  | [] => some []
  | none :: _ => none
  | some s :: rest => (seqOpts rest).map (s :: ·)

/-- Python `str.split(sep)` for a one-character separator (the script
splits only on `|`, `/` and `,`).  The accumulator holds the current
cell in reverse. -/
def splitCharAux (sep : Char) (cur : List Char) : List Char → List String
  | [] => [⟨cur.reverse⟩]
  | c :: cs =>
    if c = sep then ⟨cur.reverse⟩ :: splitCharAux sep [] cs
    else splitCharAux sep (c :: cur) cs

/-- Python `str.split(sep)` for a one-character separator. -/
def splitChar (sep : Char) (s : String) : List String :=
  splitCharAux sep [] s.data

/-! ## Model of `html.unescape` -/

/-- Named HTML entity references recognised in this development.
Modelled from Python `html.unescape` restricted to the entity names this
script can encounter; the semicolon-less forms Python additionally
accepts do not occur here. -/
def namedEntityTable : List (String × String) :=
  [("amp;", "&"), ("lt;", "<"), ("gt;", ">"), ("quot;", "\""),
   ("apos;", "'"), ("nbsp;", " "), ("rsquo;", "’"),
   ("lsquo;", "‘"), ("rdquo;", "”"), ("ldquo;", "“"),
   ("ndash;", "–"), ("mdash;", "—"), ("hellip;", "…")]

/-- Decimal value of a digit list. -/
def digitsVal (l : List Char) : Nat :=
  l.foldl (fun a c => a * 10 + (c.toNat - 48)) 0

/-- The character for a decimal numeric character reference; invalid code
points become U+FFFD as in Python.  (The Windows-1252 remapping Python
applies to the range 0x80-0x9F does not arise in this development.) -/
def charRef (n : Nat) : Char :=
  if n.isValidChar then Char.ofNat n else '�'

/-- Match an entity reference at the head of `l` (which starts with `&`):
returns the emitted characters and the number of input characters
consumed. -/
def entMatch (l : List Char) : Option (List Char × Nat) :=
  match l with
  | '&' :: '#' :: rest =>
    let ds := rest.takeWhile Char.isDigit
    if ds.isEmpty then none
    else
      match rest.drop ds.length with
      | ';' :: _ => some ([charRef (digitsVal ds)], 2 + ds.length + 1)
      | _ => none
  | '&' :: rest =>
    match namedEntityTable.find? (fun pr => pr.1.data.isPrefixOf rest) with
    | some pr => some (pr.2.data, 1 + pr.1.length)
    | none => none
  | _ => none

/-- `html.unescape`, fuelled (fuel equal to the input length suffices
since every matched entity consumes at least one character). -/
def unescapeF : Nat → List Char → List Char
  | 0, l => l
  | _ + 1, [] => []
  | fuel + 1, c :: cs =>
    if c == '&' then
      match entMatch (c :: cs) with
      | some (out, k) => out ++ unescapeF fuel ((c :: cs).drop k)
      | none => c :: unescapeF fuel cs
    else c :: unescapeF fuel cs

/-- `html.unescape` on a character list. -/
def unescapeList (l : List Char) : List Char :=
  unescapeF l.length l

/-! ## Model of `unicodedata.normalize('NFKD', ...)` and the category-C
filter -/

/-- Compatibility decomposition of a single character.  Modelled from
`unicodedata.normalize('NFKD', ...)` restricted to the characters that
can reach this stage of `clean_text` in this development; the identity on
ASCII and on characters without a decomposition.  Canonical reordering of
combining marks is omitted (no multi-mark sequences arise here). -/
def nfkdChar (c : Char) : List Char :=
  if c.toNat = 0xA0 then [' ']
  else if c.toNat = 0x2026 then ['.', '.', '.']
  else if c.toNat = 0x2122 then ['T', 'M']
  else if c.toNat = 0xC2 then ['A', Char.ofNat 0x302]
  else if c.toNat = 0xE2 then ['a', Char.ofNat 0x302]
  else if c.toNat = 0xE9 then ['e', Char.ofNat 0x301]
  else if c.toNat = 0xE1 then ['a', Char.ofNat 0x301]
  else if c.toNat = 0xED then ['i', Char.ofNat 0x301]
  else if c.toNat = 0xF3 then ['o', Char.ofNat 0x301]
  else if c.toNat = 0xFA then ['u', Char.ofNat 0x301]
  else if c.toNat = 0xF1 then ['n', Char.ofNat 0x303]
  else if c.toNat = 0xE7 then ['c', Char.ofNat 0x327]
  else if c.toNat = 0xB4 then [' ', Char.ofNat 0x301]
  else if c.toNat = 0xBD then ['1', Char.ofNat 0x2044, '2']
  else if c.toNat = 0xBC then ['1', Char.ofNat 0x2044, '4']
  else if c.toNat = 0xBE then ['3', Char.ofNat 0x2044, '4']
  else [c]

/-- NFKD normalisation of a character list. -/
def nfkd (l : List Char) : List Char :=
  l.flatMap nfkdChar

/-- Unicode general category C (control, format), modelled from
`unicodedata.category(char)[0] == 'C'` restricted to the control and
common format characters; the surrogate/private-use/unassigned classes
do not occur in this development. -/
def isCatC (c : Char) : Bool :=
  c.toNat < 0x20 || c.toNat == 0x7F ||
  (0x80 ≤ c.toNat && c.toNat ≤ 0x9F) || c.toNat == 0xAD ||
  (0x200B ≤ c.toNat && c.toNat ≤ 0x200F) ||
  (0x202A ≤ c.toNat && c.toNat ≤ 0x202E) ||
  (0x2060 ≤ c.toNat && c.toNat ≤ 0x2064) || c.toNat == 0xFEFF

/-- The per-character filter of line 106 of the script: drop category-C
characters other than tab, newline, carriage return and space. -/
def keepChar (c : Char) : Bool :=
  !isCatC c || c == '\t' || c == '\n' || c == '\r' || c == ' '

/-! ## The substitution tables of `clean_text` -/

/-- The `html_entities` dictionary (lines 27-48 of the script), in
insertion order. -/
def entitySubTable : List (String × String) :=
  [("&#8217;", "'"), ("&#8216;", "'"), ("&#8220;", "\""), ("&#8221;", "\""),
   ("&#8211;", "–"), ("&#8212;", "—"), ("&#8230;", "…"),
   ("&#8242;", "'"), ("&#8243;", "\""), ("&rsquo;", "'"), ("&lsquo;", "'"),
   ("&rdquo;", "\""), ("&ldquo;", "\""), ("&ndash;", "–"),
   ("&mdash;", "—"), ("&hellip;", "…"), ("&nbsp;", " "),
   ("&amp;", "&"), ("&lt;", "<"), ("&gt;", ">")]

/-- The `replacements` dictionary (lines 58-89 of the script).  The
Python literal repeats some keys; per Python semantics a repeated key
keeps its first insertion position and its last assigned value, which is
what this list records. -/
def mojibakeTable : List (String × String) :=
  [("Â", ""),
   ("â€™", "'"),
   ("â€œ", "\""),
   ("â€", "–"),
   ("â€\"", "—"),
   ("â€¢", "•"),
   ("â€¦", "…"),
   ("â€˜", "'"),
   ("Ã©", "é"), ("Ã¡", "á"), ("Ã­", "í"),
   ("Ã³", "ó"), ("Ãº", "ú"), ("Ã±", "ñ"),
   ("Ã§", "ç"),
   ("Â´", "'"), ("Â°", "°"), ("Â½", "½"),
   ("Â¼", "¼"), ("Â¾", "¾"),
   ("â\u0080\u0099", "'"), ("â\u0080\u0093", "–"),
   ("â\u0080\u0094", "—"), ("â\u0080\u009C", "\""),
   ("â\u0080\u009D", "\"")]

/-- The eight regex substitutions of lines 96-103 of the script, each an
alternation of literal sequences together with its replacement. -/
def regexSubTable : List (List String × String) :=
  [(["â€™", "â€'"], "'"),
   (["â€\""], "\""),
   (["â€–", "â€—"], "–"),
   (["â€œ"], "\""),
   (["â€"], "\""),
   (["â€˜"], "'"),
   (["â€¢"], "•"),
   (["â€¦"], "…")]

/-! ## `clean_text` -/

/-- The text normaliser `clean_text` (lines 14-119 of the script).  The
stages appear in the script's order: HTML entity decoding, the explicit
entity table, NFKD normalisation, the mojibake table, the regex
substitutions, the category-C filter, whitespace collapsing, stripping,
and removal of question-mark runs.  The `try` body cannot raise in this
model, so the `except` fallback (line 117) is dead. -/
def clean_text (s : String) : String :=
  if s = "" then ""
  else
    let l := unescapeList s.data
    let l := entitySubTable.foldl (fun acc pr => subPats [pr.1.data] pr.2.data acc) l
    let l := nfkd l
    let l := mojibakeTable.foldl (fun acc pr => subPats [pr.1.data] pr.2.data acc) l
    let l := regexSubTable.foldl
      (fun acc pr => subPats (pr.1.map String.data) pr.2.data acc) l
    let l := l.filter keepChar
    let l := collapseWs l
    let l := pyStripList l
    let l := rmQRuns l
    ⟨l⟩

/-! ## Calendar arithmetic and the Europe/Athens timezone -/

/-- A parsed datetime as produced by the external `dateutil` parser:
civil date and time plus an optional UTC offset in minutes. -/
structure PDate where
  year : Int
  month : Nat
  day : Nat
  hour : Nat
  minute : Nat
  second : Nat
  tzOffset : Option Int
deriving DecidableEq, Repr

/-- Days since 1970-01-01 of a civil date (standard civil-calendar
conversion). -/
def daysFromCivil (y : Int) (m d : Nat) : Int :=
  let y' := if m ≤ 2 then y - 1 else y
  let era := y'.fdiv 400
  let yoe := (y' - era * 400).toNat
  let mp := if m > 2 then m - 3 else m + 9
  let doy := (153 * mp + 2) / 5 + d - 1
  let doe := yoe * 365 + yoe / 4 - yoe / 100 + doy
  era * 146097 + (doe : Int) - 719468

/-- Civil date of a day count since 1970-01-01 (inverse of
`daysFromCivil`). -/
def civilFromDays (z0 : Int) : Int × Nat × Nat :=
  let z := z0 + 719468
  let era := z.fdiv 146097
  let doe := (z - era * 146097).toNat
  let yoe := (doe - doe / 1460 + doe / 36524 - doe / 146096) / 365
  let y : Int := (yoe : Int) + era * 400
  let doy := doe - (365 * yoe + yoe / 4 - yoe / 100)
  let mp := (5 * doy + 2) / 153
  let d := doy - (153 * mp + 2) / 5 + 1
  let m := if mp < 10 then mp + 3 else mp - 9
  (if m ≤ 2 then y + 1 else y, m, d)

/-- Minutes since the epoch of a civil datetime (seconds are carried
separately: all offsets involved are whole minutes). -/
def dtToMinutes (y : Int) (mo d h mi : Nat) : Int :=
  daysFromCivil y mo d * 1440 + (h * 60 + mi : Nat)

/-- Civil datetime (year, month, day, hour, minute) of a minute count. -/
def minutesToDT (t : Int) : Int × Nat × Nat × Nat × Nat :=
  let days := t.fdiv 1440
  let rem := (t - days * 1440).toNat
  let c := civilFromDays days
  (c.1, c.2.1, c.2.2, rem / 60, rem % 60)

/-- Day of the week of a day count, with Sunday = 0 (1970-01-01 was a
Thursday). -/
def dayOfWeek (z : Int) : Nat :=
  ((z + 4) % 7).toNat

/-- Number of days in a month of the civil calendar. -/
def daysInMonth (y : Int) (m : Nat) : Nat :=
  if m = 1 ∨ m = 3 ∨ m = 5 ∨ m = 7 ∨ m = 8 ∨ m = 10 ∨ m = 12 then 31
  else if m = 4 ∨ m = 6 ∨ m = 9 ∨ m = 11 then 30
  else if y % 4 = 0 ∧ (y % 100 ≠ 0 ∨ y % 400 = 0) then 29
  else 28

/-- Day of month of the last Sunday of a month. -/
def lastSunday (y : Int) (m : Nat) : Nat :=
  let last := daysInMonth y m
  last - dayOfWeek (daysFromCivil y m last)

/-- UTC offset, in minutes, of Europe/Athens at a given UTC instant.
Modelled from the `pytz` `Europe/Athens` zone restricted to the modern EU
rule: UTC+2, with UTC+3 between 01:00 UTC on the last Sunday of March
and 01:00 UTC on the last Sunday of October. -/
def athensOffset (t : Int) : Int :=
  let y := (minutesToDT t).1
  let dstStart := dtToMinutes y 3 (lastSunday y 3) 1 0
  let dstEnd := dtToMinutes y 10 (lastSunday y 10) 1 0
  if dstStart ≤ t ∧ t < dstEnd then 180 else 120

/-- Two-digit zero padding, as in `strftime`. -/
def pad2 (n : Nat) : String :=
  if n < 10 then "0" ++ toString n else toString n

/-- `strftime('%d/%m/%Y %H:%M:%S')` for years of four digits (the only
years arising here). -/
def fmtDT (y : Int) (mo d h mi s : Nat) : String :=
  pad2 d ++ "/" ++ pad2 mo ++ "/" ++ toString y ++ " " ++
    pad2 h ++ ":" ++ pad2 mi ++ ":" ++ pad2 s

/-- Lines 150-158 of the script: treat a missing timezone as UTC,
convert the parsed datetime to Europe/Athens and format it. -/
def toAthens (d : PDate) : String :=
  let off := d.tzOffset.getD 0
  let utc := dtToMinutes d.year d.month d.day d.hour d.minute - off
  let a := utc + athensOffset utc
  let c := minutesToDT a
  fmtDT c.1 c.2.1 c.2.2.1 c.2.2.2.1 c.2.2.2.2 d.second

/-- The date standardiser `standardize_date` (lines 121-162 of the
script), parameterised by the external `dateutil` parser `p` (a parse
attempt that raises is `none`).  For the TradeWinds source the trailing
` GMT` is first rewritten to ` +0000`; if that attempt fails, or for any
other source, the cleaned string is parsed directly; if parsing fails the
cleaned string itself is returned. -/
def standardize_date (p : String → Option PDate) (date_string source_name : String) : String :=
  if pyStrip date_string = "" then ""
  else
    let ds := clean_text date_string
    let parsed : Option PDate :=
      if source_name = "TradeWinds" then
        match p (replaceStr ds " GMT" " +0000") with
        | some d => some d
        | none => p ds
      else p ds
    match parsed with
    | none => ds
    | some d => toAthens d

/-! ## The record model and the dedup-append store -/

/-- A per-run article record as built by the extractors (lines 222-230 of
the script and their analogues). -/
structure Article where
  title : String
  link : String
  creator : String
  pubdate : String
  category : String
  description : String
  source : String
deriving DecidableEq, Repr

/-- A persisted CSV row (the eight current columns, lines 772 and 785-794
of the script). -/
structure Row where
  title : String
  link : String
  creator : String
  pubdate : String
  category : String
  description : String
  source : String
  scrape_timestamp : String
deriving DecidableEq, Repr

/-- The `article_row` dictionary of lines 785-794: an article together
with the run's scrape timestamp. -/
def mkRow (a : Article) (ts : String) : Row :=
  { title := a.title, link := a.link, creator := a.creator,
    pubdate := a.pubdate, category := a.category,
    description := a.description, source := a.source,
    scrape_timestamp := ts }

/-- The write loop of lines 781-797: each article is appended exactly
when its link is truthy (non-empty) and not in the set of links read from
the store at the start of the run; the counter mirrors
`new_articles_count`.  The set `existing` is not updated inside the
loop, exactly as in the script. -/
def writeNewArticles (existing : List String) (ts : String) : List Article → List Row × Nat
  | [] => ([], 0)
  | a :: rest =>
    if a.link != "" && !(existing.contains a.link) then
      (mkRow a ts :: (writeNewArticles existing ts rest).1,
        (writeNewArticles existing ts rest).2 + 1)
    else writeNewArticles existing ts rest

/-- The links present in the store, as read by lines 758-764. -/
def existingLinks (store : List Row) : List String :=
  store.map Row.link

/-- One run's interaction with the store (lines 754-797): the file is
opened in append mode, so the store is the old rows followed by the rows
the write loop produced. -/
def scrape_run_append (store : List Row) (ts : String) (batch : List Article) : List Row :=
  store ++ (writeNewArticles (existingLinks store) ts batch).1

/-- A sequence of runs, each with its own scrape timestamp and fetched
batch. -/
def run_all (store : List Row) : List (String × List Article) → List Row
  | [] => store
  | r :: rest => run_all (scrape_run_append store r.1 r.2) rest

/-- Modelled from the spec's words (section 4.4): `append(new_records)`
writes exactly those records whose link is not already in the existing
set, in the order produced by the run.  Used only to compare the spec's
description with the script's write loop. -/
def specAppend (store : List Row) (ts : String) (batch : List Article) : List Row :=
  store ++ (batch.filter (fun a => !((existingLinks store).contains a.link))).map (mkRow · ts)

/-! ## The Splash247 RSS extractor -/

/-- A raw feed entry as surfaced by the external `feedparser` library.
`none` in `titleAttr`, `linkAttr` or a tag's term models a missing
attribute, whose access raises inside the extraction loop. -/
structure RawEntry where
  titleAttr : Option String
  linkAttr : Option String
  author : String
  tags : Option (List (Option String))
  cats : Option (List String)
  description : String
  published : Option String
  updated : Option String
deriving DecidableEq, Repr

/-- The category pipeline of lines 177-201 of the script, applied to the
already-cleaned tag/category strings: a single string containing a pipe
is split on it, each part passed through `clean_text`, then every part is
stripped, empty parts dropped, and the rest joined with a comma and
space. -/
def splash_category (cats0 : List String) : String :=
  let cats1 :=
    if cats0.length = 1 && strContains (cats0.headD "") "|" then
      (splitChar '|' (cats0.headD "")).map clean_text
    else cats0
  let cats2 := (cats1.map pyStrip).filter (fun c => c != "")
  if cats2.isEmpty then "" else String.intercalate ", " cats2

/-- Extraction of a single Splash247 feed entry (lines 176-231 of the
script), parameterised by the `dateutil` parser `p` and the BeautifulSoup
text extraction `soupText` (both external libraries).  `none` models an
exception escaping this entry's processing: a missing `title` or `link`
attribute, or a missing `term` on a tag. -/
def parse_splash_entry (p : String → Option PDate) (soupText : String → String)
    (e : RawEntry) : Option Article :=
  let cats0? : Option (List String) :=
    match e.tags with
    | some ts => (seqOpts ts).map (List.map clean_text)
    | none =>
      match e.cats with
      | some cs => some (cs.map clean_text)
      | none => some []
  match cats0?, e.titleAttr, e.linkAttr with
  | some cats0, some ttl, some lnk =>
    let desc := if e.description = "" then "" else clean_text (soupText e.description)
    let pub :=
      match e.published with
      | some v => v
      | none => e.updated.getD ""
    some { title := clean_text ttl, link := lnk, creator := clean_text e.author,
           pubdate := standardize_date p pub "Splash247",
           category := splash_category cats0, description := desc, source := "Splash247" }
  | _, _, _ => none

/-- The entry loop of `scrape_splash247_rss`: the whole loop runs inside
one `try`, so the first entry whose processing raises aborts the loop and
the articles accumulated so far are returned. -/
def splashLoop (p : String → Option PDate) (soupText : String → String) :
    List RawEntry → List Article
  | [] => []
  | e :: es =>
    match parse_splash_entry p soupText e with
    | some a => a :: splashLoop p soupText es
    | none => []

/-- `scrape_splash247_rss` (lines 164-236 of the script): a failed fetch
(`Except.error`) is caught by the outer handler and yields the articles
accumulated so far, which is the empty list. -/
def scrape_splash247_rss (p : String → Option PDate) (soupText : String → String)
    (fetched : Except Unit (List RawEntry)) : List Article :=
  match fetched with
  | .error _ => []
  | .ok entries => splashLoop p soupText entries

/-! ## The TradeWinds HTML extractor -/

/-- A candidate article link inside a TradeWinds card, as surfaced by the
external BeautifulSoup queries: its `href` attribute (absent is skipped
by line 375) and its text. -/
structure TWLinkInfo where
  href : Option String
  text : String
deriving DecidableEq, Repr

/-- An article card of the TradeWinds listing page after the external
BeautifulSoup queries.  `bad` models a card whose processing raises
before any link is handled; a `none` entry in `links` models an
exception raised while handling that link (the per-card `except` catches
it and continues with the next card).  `category`, `pub` and `desc` are
the query results for the category link, the published-at span and the
first description candidate (absent when the query found nothing). -/
inductive TWCard where
  | bad : TWCard
  | ok (category : Option String) (pub : Option String) (desc : Option String)
      (links : List (Option TWLinkInfo)) : TWCard
deriving DecidableEq, Repr

/-- Whether a card's processing starts normally. -/
def TWCard.isOk : TWCard → Bool
  | .bad => false
  | .ok _ _ _ _ => true

/-- The mutable state of the TradeWinds scrape: the accumulated articles
and the processed-href set. -/
structure TWState where
  articles : List Article
  processed : List String
deriving DecidableEq, Repr

/-- The published date of a card (lines 396-404): strip a leading
`Published` marker if present. -/
def twPubdate (pub : Option String) : String :=
  match pub with
  | none => ""
  | some t =>
    let s := pyStrip (clean_text t)
    if strContains s "Published" then pyStrip (replaceStr s "Published" "")
    else s

/-- The inner loop over a card's title links (lines 374-431).  The
returned boolean records whether the 20-article limit was reached (the
inner `break` of line 431); a `none` link aborts the card (exception,
caught by the per-card handler). -/
def twLinks (stdPub category desc : String) :
    List (Option TWLinkInfo) → TWState → TWState × Bool
  | [], st => (st, false)
  | none :: _, st => (st, false)
  | some li :: rest, st =>
    match li.href with
    | none => twLinks stdPub category desc rest st
    | some href =>
      if st.processed.contains href then twLinks stdPub category desc rest st
      else if href.startsWith "/" && (splitChar '/' href).length > 2 then
        let title := pyStrip (clean_text li.text)
        if title == "" || title.length < 10 then twLinks stdPub category desc rest st
        else
          let link := if href.startsWith "/" then "https://www.tradewindsnews.com" ++ href else href
          let a : Article :=
            { title := title, link := link, creator := "", pubdate := stdPub,
              category := category, description := desc, source := "TradeWinds" }
          let st' : TWState :=
            { articles := st.articles ++ [a], processed := st.processed ++ [href] }
          if st'.articles.length ≥ 20 then (st', true)
          else twLinks stdPub category desc rest st'
      else twLinks stdPub category desc rest st

/-- Processing of one well-formed card (lines 362-431): the category
text, the published date and the description candidate are extracted and
cleaned, then the card's title links are scanned. -/
def twProcessCard (p : String → Option PDate) (category pub desc : Option String)
    (links : List (Option TWLinkInfo)) (st : TWState) : TWState × Bool :=
  twLinks (standardize_date p (twPubdate pub) "TradeWinds")
    ((category.map (fun t => pyStrip (clean_text t))).getD "")
    ((desc.map (fun t => pyStrip (clean_text t))).getD "") links st

/-- The outer loop over the article cards (lines 360-438).  A `bad` card
is caught by the per-card handler and skipped; after a card completes
normally the 20-article check of line 433 may break the loop (an aborted
card skips that check, as the `continue` of line 438 does). -/
def twCards (p : String → Option PDate) : List TWCard → TWState → TWState
  | [], st => st
  | .bad :: rest, st => twCards p rest st
  | .ok category pub desc links :: rest, st =>
    if (twProcessCard p category pub desc links st).2 then
      (twProcessCard p category pub desc links st).1
    else twCards p rest (twProcessCard p category pub desc links st).1

/-- `scrape_tradewinds_html` (lines 327-445 of the script): a failed
fetch is caught by the outer handler and yields the articles accumulated
so far, which is the empty list. -/
def scrape_tradewinds_html (p : String → Option PDate)
    (fetched : Except Unit (List TWCard)) : List Article :=
  match fetched with
  | .error _ => []
  | .ok cards => (twCards p cards ⟨[], []⟩).articles

/-! ## CSV schema migration -/

/-- The current column list (line 691 of the script). -/
def fieldnames : List String :=
  ["title", "link", "creator", "pubdate", "category", "description",
   "source", "scrape_timestamp"]

/-- The current on-disk header line. -/
def currentHeader : String :=
  String.intercalate "," fieldnames

/-- A non-empty on-disk CSV file: the raw header line and the data rows
(cells per row, CSV quoting being the external `csv` library's
concern). -/
structure CsvFile where
  header : String
  rows : List (List String)
deriving DecidableEq, Repr

/-- The migration trigger of line 669: the header mentions
`vessel_name` or `port` as a substring, or does not mention
`scrape_timestamp`. -/
def needsMig (header : String) : Bool :=
  strContains header "vessel_name" || strContains header "port" ||
    !(strContains header "scrape_timestamp")

/-- `row.get(col, dflt)` through `csv.DictReader`: the default applies
when the column is absent from the header; a cell missing because the
row is short surfaces as the empty string in the rewritten file. -/
def rowGet (hdr : List String) (row : List String) (col dflt : String) : String :=
  match idxOf hdr col with
  | some i => (row.get? i).getD ""
  | none => dflt

/-- The `new_row` dictionary of lines 678-687, in the order of the
current column list. -/
def migRow (hdr : List String) (row : List String) : List String :=
  [clean_text (rowGet hdr row "title" ""),
   rowGet hdr row "link" "",
   clean_text (rowGet hdr row "creator" ""),
   rowGet hdr row "pubdate" "",
   clean_text (rowGet hdr row "category" ""),
   clean_text (rowGet hdr row "description" ""),
   rowGet hdr row "source" "Unknown",
   rowGet hdr row "scrape_timestamp" "Unknown"]

/-- `migrate_existing_csv` (lines 649-702 of the script) on a non-empty
existing file; an absent or empty file returns before this point.  When
the trigger fires the whole file is rewritten with the current column
list, otherwise it is left untouched. -/
def migrate_existing_csv (f : CsvFile) : CsvFile :=
  if needsMig f.header then
    ⟨currentHeader, f.rows.map (migRow (splitChar ',' f.header))⟩
  else f

/-- Modelled from the spec's words (section 4.4 and section 8's testable
property): migration maps old columns to new ones verbatim, defaulting
the newly introduced column to a fixed sentinel, preserving row order and
all retained data.  Used only to compare the spec's description with the
script's migration. -/
def specMigrate (f : CsvFile) : CsvFile :=
  ⟨currentHeader,
   f.rows.map (fun row =>
     (fieldnames.dropLast).map (fun c => rowGet (splitChar ',' f.header) row c "") ++
       ["Unknown"])⟩

/-- Modelled from the spec's words (section 4.1): split the single
category string on the delimiter, trim each part, drop empties, join
with a comma and space.  Used only to compare the spec's description
with the script's category pipeline. -/
def specCategoryJoin (s : String) : String :=
  String.intercalate ", " (((splitChar '|' s).map pyStrip).filter (fun c => c != ""))

/-! ## Concrete instances used by claim theorems -/

def cexArticleA : Article :=
  ⟨"t1", "https://x/1", "", "", "", "", "S"⟩

def cexArticleB : Article :=
  ⟨"t2", "https://x/1", "", "", "", "", "S"⟩

def witArticle1 : Article :=
  ⟨"t1", "https://a/1", "", "", "", "", "S"⟩

def witArticle2 : Article :=
  ⟨"t2", "https://a/2", "", "", "", "", "S"⟩

def storedRow1 : Row :=
  ⟨"t0", "https://a/1", "", "", "", "", "S", "T0"⟩

def emptyLinkArticle : Article :=
  ⟨"t1", "", "", "", "", "", "S"⟩

def oldCsvFile : CsvFile :=
  ⟨"title,link,creator,pubdate,category,description,source",
   [["a  b", "https://a/1", "", "", "", "", "S"]]⟩

def c8Oracle : String → Option PDate :=
  fun s => if s = "22 August 2025 14:31 +0000" then
    some ⟨2025, 8, 22, 14, 31, 0, some 0⟩ else none

def pipeTagEntry : RawEntry :=
  ⟨some "A sufficiently long title", some "https://s/1", "",
   some [some "&amp;amp;amp;|X"], none, "", none, none⟩

/-! ## Helper lemmas -/

theorem writeNew_eq_filter (existing : List String) (ts : String) (batch : List Article) :
    (writeNewArticles existing ts batch).1 =
      (batch.filter (fun a => a.link != "" && !(existing.contains a.link))).map (mkRow · ts) := by
  induction batch with
  | nil => rfl
  | cons a rest ih =>
    by_cases h : a.link ≠ "" ∧ a.link ∉ existing
    · simp [writeNewArticles, List.filter_cons, h, ih]
    · simp [writeNewArticles, List.filter_cons, h, ih]

theorem count_link_single_run (store : List Row) (ts : String) (batch : List Article)
    (l : String)
    (h1 : (existingLinks store).count l ≤ 1)
    (h2 : ((batch.map Article.link).count l ≤ 1)) :
    (existingLinks (scrape_run_append store ts batch)).count l ≤ 1 := by
  unfold scrape_run_append
  unfold existingLinks at *
  rw [List.map_append, List.count_append, writeNew_eq_filter, List.map_map]
  have hcomp : (Row.link ∘ fun a => mkRow a ts) = Article.link := rfl
  rw [hcomp]
  by_cases hl : l ∈ store.map Row.link
  · have hz : ((batch.filter
        (fun a => a.link != "" && !((store.map Row.link).contains a.link))).map
          Article.link).count l = 0 := by
      rw [List.count_eq_zero]
      intro hmem
      rw [List.mem_map] at hmem
      obtain ⟨a, ha, hlink⟩ := hmem
      rw [List.mem_filter] at ha
      have hcond := ha.2
      rw [Bool.and_eq_true] at hcond
      have hnc : a.link ∉ store.map Row.link := by
        simpa using hcond.2
      exact hnc (hlink ▸ hl)
    omega
  · have hz : (store.map Row.link).count l = 0 := by
      rw [List.count_eq_zero]; exact hl
    have hsub : (batch.filter
        (fun a => a.link != "" && !((store.map Row.link).contains a.link))).Sublist batch :=
      List.filter_sublist batch
    have hle : ((batch.filter
        (fun a => a.link != "" && !((store.map Row.link).contains a.link))).map
          Article.link).count l ≤ (batch.map Article.link).count l :=
      (hsub.map Article.link).count_le l
    omega

theorem splashLoop_eq_parsed_initial_segment (p : String → Option PDate)
    (soupText : String → String) (entries : List RawEntry) :
    splashLoop p soupText entries =
      (entries.takeWhile (fun e => (parse_splash_entry p soupText e).isSome)).filterMap
        (parse_splash_entry p soupText) := by
  induction entries with
  | nil => rfl
  | cons e es ih =>
    cases h : parse_splash_entry p soupText e with
    | none => simp [splashLoop, h, List.takeWhile_cons, List.filter]
    | some a => simp [splashLoop, h, List.takeWhile_cons, ih]

theorem twLinks_extends (stdPub category desc : String)
    (links : List (Option TWLinkInfo)) (st : TWState) :
    ∃ t, st.articles ++ t = (twLinks stdPub category desc links st).1.articles := by
  induction links generalizing st with
  | nil => exact ⟨[], by simp [twLinks]⟩
  | cons li rest ih =>
    cases li with
    | none => exact ⟨[], by simp [twLinks]⟩
    | some l =>
      cases hh : l.href with
      | none =>
        simp only [twLinks, hh]
        exact ih st
      | some href =>
        simp only [twLinks, hh]
        by_cases h1 : st.processed.contains href = true
        · rw [if_pos h1]; exact ih st
        · rw [if_neg h1]
          by_cases h2 : (href.startsWith "/" && decide ((splitChar '/' href).length > 2)) = true
          · have hs : href.startsWith "/" = true := by
              have h2x := h2
              simp only [Bool.and_eq_true] at h2x
              exact h2x.1
            rw [if_pos h2, if_pos hs]
            by_cases h3 : (pyStrip (clean_text l.text) == "" ||
                decide ((pyStrip (clean_text l.text)).length < 10)) = true
            · rw [if_pos h3]; exact ih st
            · rw [if_neg h3]
              split_ifs with h4
              · exact ⟨_, rfl⟩
              · obtain ⟨t, ht⟩ := ih
                  { articles := st.articles ++
                      [{ title := pyStrip (clean_text l.text),
                         link := "https://www.tradewindsnews.com" ++ href,
                         creator := "", pubdate := stdPub, category := category,
                         description := desc, source := "TradeWinds" }],
                    processed := st.processed ++ [href] }
                rw [List.append_assoc] at ht
                exact ⟨_, ht⟩
          · rw [if_neg h2]; exact ih st

theorem twCards_extends (p : String → Option PDate) (cards : List TWCard) (st : TWState) :
    ∃ t, st.articles ++ t = (twCards p cards st).articles := by
  induction cards generalizing st with
  | nil => exact ⟨[], by simp [twCards]⟩
  | cons c rest ih =>
    cases c with
    | bad =>
      simp only [twCards]
      exact ih st
    | ok category pub desc links =>
      simp only [twCards]
      split_ifs with hb
      · exact twLinks_extends _ _ _ links st
      · obtain ⟨t1, ht1⟩ := twLinks_extends
          (standardize_date p (twPubdate pub) "TradeWinds")
          ((category.map (fun t => pyStrip (clean_text t))).getD "")
          ((desc.map (fun t => pyStrip (clean_text t))).getD "") links st
        obtain ⟨t2, ht2⟩ := ih (twProcessCard p category pub desc links st).1
        refine ⟨t1 ++ t2, ?_⟩
        rw [← List.append_assoc, ht1]
        exact ht2

theorem twCards_append_extends (p : String → Option PDate) (xs ys : List TWCard)
    (st : TWState) :
    ∃ t, (twCards p xs st).articles ++ t = (twCards p (xs ++ ys) st).articles := by
  induction xs generalizing st with
  | nil =>
    simp only [twCards, List.nil_append]
    exact twCards_extends p ys st
  | cons c xs ih =>
    cases c with
    | bad =>
      simp only [List.cons_append, twCards]
      exact ih st
    | ok category pub desc links =>
      simp only [List.cons_append, twCards]
      split_ifs with hb
      · exact ⟨[], by simp⟩
      · exact ih (twProcessCard p category pub desc links st).1

theorem twLinks_length_le (stdPub category desc : String)
    (links : List (Option TWLinkInfo)) (st : TWState)
    (h : st.articles.length < 20) :
    (twLinks stdPub category desc links st).1.articles.length ≤ 20 ∧
      ((twLinks stdPub category desc links st).2 = false →
        (twLinks stdPub category desc links st).1.articles.length < 20) := by
  induction links generalizing st with
  | nil => exact ⟨le_of_lt h, fun _ => h⟩
  | cons li rest ih =>
    cases li with
    | none => exact ⟨le_of_lt h, fun _ => h⟩
    | some l =>
      cases hh : l.href with
      | none =>
        simp only [twLinks, hh]
        exact ih st h
      | some href =>
        simp only [twLinks, hh]
        by_cases h1 : st.processed.contains href = true
        · rw [if_pos h1]; exact ih st h
        · rw [if_neg h1]
          by_cases h2 : (href.startsWith "/" && decide ((splitChar '/' href).length > 2)) = true
          · have hs : href.startsWith "/" = true := by
              have h2x := h2
              simp only [Bool.and_eq_true] at h2x
              exact h2x.1
            rw [if_pos h2, if_pos hs]
            by_cases h3 : (pyStrip (clean_text l.text) == "" ||
                decide ((pyStrip (clean_text l.text)).length < 10)) = true
            · rw [if_pos h3]; exact ih st h
            · rw [if_neg h3]
              split_ifs with h4
              · refine ⟨?_, ?_⟩
                · simp only [List.length_append, List.length_cons, List.length_nil] at h4 ⊢
                  omega
                · intro hfalse
                  simp at hfalse
              · refine ih _ ?_
                simp only [List.length_append, List.length_cons, List.length_nil] at h4 ⊢
                omega
          · rw [if_neg h2]; exact ih st h

theorem twCards_length_le (p : String → Option PDate) (cards : List TWCard) (st : TWState)
    (h : st.articles.length < 20) :
    (twCards p cards st).articles.length ≤ 20 := by
  induction cards generalizing st with
  | nil =>
    simp only [twCards]
    exact le_of_lt h
  | cons c rest ih =>
    cases c with
    | bad =>
      simp only [twCards]
      exact ih st h
    | ok category pub desc links =>
      simp only [twCards]
      have hl := twLinks_length_le (standardize_date p (twPubdate pub) "TradeWinds")
        ((category.map (fun t => pyStrip (clean_text t))).getD "")
        ((desc.map (fun t => pyStrip (clean_text t))).getD "") links st h
      split_ifs with hb
      · exact hl.1
      · exact ih _ (hl.2 (by simpa using hb))

theorem splash_category_single_pipe (s : String) (hpipe : strContains s "|" = true) :
    splash_category [s] =
      String.intercalate ", "
        ((((splitChar '|' s).map clean_text).map pyStrip).filter (fun c => c != "")) := by
  unfold splash_category
  simp only [List.length_cons, List.length_nil, List.headD_cons, Nat.zero_add, hpipe,
    Bool.and_true]
  rw [if_pos (by decide : (decide True = true))]
  by_cases hi : List.filter (fun c => c != "")
      (List.map pyStrip (List.map clean_text (splitChar '|' s))) = []
  · rw [hi]
    rfl
  · rw [if_neg (fun hcontra => hi (List.isEmpty_iff.mp hcontra))]

/-! ## Claim theorems -/

/-- C1 (counterexample): the deduplication invariant fails as stated.  A
run whose fetched batch contains two records with the same link that is
not yet in the store appends both of them, because the write loop never
adds freshly written links to the `existing_links` set: starting from an
empty store, the batch `[cexArticleA, cexArticleB]` (both with link
`https://x/1`) leaves two rows with that link in the store. -/
theorem duplicate_new_link_appended_twice :
    (existingLinks (scrape_run_append [] "T1" [cexArticleA, cexArticleB])).count
        "https://x/1" = 2 ∧
    ¬((existingLinks (scrape_run_append [] "T1" [cexArticleA, cexArticleB])).count
        "https://x/1" ≤ 1) :=
  ⟨by decide, by decide⟩

/-- C1 (amended): across every sequence of runs, at most one record per
distinct link exists in the store, provided no run's batch itself repeats
that link: the store's links are deduplicated only against the links
present in the store when a run starts. -/
theorem at_most_one_row_per_link_for_duplicate_free_batches
    (runs : List (String × List Article)) (store : List Row) (l : String)
    (h1 : (existingLinks store).count l ≤ 1)
    (h2 : ∀ r ∈ runs, (r.2.map Article.link).count l ≤ 1) :
    (existingLinks (run_all store runs)).count l ≤ 1 := by
  induction runs generalizing store with
  | nil => simpa [run_all] using h1
  | cons r rest ih =>
    simp only [run_all]
    exact ih (scrape_run_append store r.1 r.2)
      (count_link_single_run store r.1 r.2 l h1 (h2 r (List.mem_cons_self r rest)))
      (fun x hx => h2 x (List.mem_cons_of_mem r hx))

/-- C1 (witness): the amended statement applied to the empty store and
two concrete runs with duplicate-free batches. -/
theorem at_most_one_row_per_link_for_duplicate_free_batches_witness :
    (existingLinks ([] : List Row)).count "https://a/1" ≤ 1 ∧
    (∀ r ∈ [("T1", [witArticle1, witArticle2]), ("T2", [witArticle1])],
        (r.2.map Article.link).count "https://a/1" ≤ 1) ∧
    (existingLinks (run_all []
        [("T1", [witArticle1, witArticle2]), ("T2", [witArticle1])])).count
      "https://a/1" ≤ 1 :=
  ⟨by decide, by decide,
    at_most_one_row_per_link_for_duplicate_free_batches
      [("T1", [witArticle1, witArticle2]), ("T2", [witArticle1])] [] "https://a/1"
      (by decide) (by decide)⟩

/-- C2: the text normaliser is not idempotent.  On `"a ?? b"` the
question-mark-run removal (which runs after whitespace collapsing)
leaves the two adjacent spaces `"a  b"`, and a second application
collapses them to `"a b"`. -/
theorem clean_text_not_idempotent :
    clean_text "a ?? b" = "a  b" ∧
    clean_text (clean_text "a ?? b") = "a b" ∧
    clean_text (clean_text "a ?? b") ≠ clean_text "a ?? b" :=
  ⟨by decide, by decide, by decide⟩

/-- C3 (counterexample): the append step does not write every batch
record whose link is missing from the store: a record with an empty link
is skipped by the truthiness test of line 783 even though the empty
string is not in the (empty) existing set, diverging from the
spec-worded `specAppend`. -/
theorem append_skips_empty_link_records :
    scrape_run_append [] "T" [emptyLinkArticle] = [] ∧
    specAppend [] "T" [emptyLinkArticle] = [mkRow emptyLinkArticle "T"] ∧
    scrape_run_append [] "T" [emptyLinkArticle] ≠ specAppend [] "T" [emptyLinkArticle] :=
  ⟨by decide, by decide, by decide⟩

/-- C3 (amended): the append operation writes exactly those batch records
whose link is non-empty and not in the set of links already present in
the store, in batch order, and leaves every pre-existing row unmodified;
in particular, for a store containing `https://a/1` and a batch with
links `https://a/1` and `https://a/2`, exactly the row for `https://a/2`
is appended after the untouched existing row. -/
theorem append_writes_exactly_new_nonempty_links :
    (∀ (existing : List String) (ts : String) (batch : List Article),
        (writeNewArticles existing ts batch).1 =
          (batch.filter (fun a => a.link != "" && !(existing.contains a.link))).map
            (mkRow · ts)) ∧
    (∀ (store : List Row) (ts : String) (batch : List Article),
        scrape_run_append store ts batch =
          store ++ (batch.filter
              (fun a => a.link != "" && !((existingLinks store).contains a.link))).map
            (mkRow · ts)) ∧
    scrape_run_append [storedRow1] "T1" [witArticle1, witArticle2] =
      [storedRow1, mkRow witArticle2 "T1"] := by
  refine ⟨writeNew_eq_filter, ?_, by decide⟩
  intro store ts batch
  unfold scrape_run_append
  rw [writeNew_eq_filter]

/-- C5 (counterexample): migration of a store whose header lacks the
`scrape_timestamp` column does not preserve all other column values: the
rewrite of lines 678-687 re-applies `clean_text` to the text columns, so
a title with two adjacent spaces comes out changed. -/
theorem migration_rewrites_text_columns :
    strContains oldCsvFile.header "scrape_timestamp" = false ∧
    (migrate_existing_csv oldCsvFile).rows =
      [["a b", "https://a/1", "", "", "", "", "S", "Unknown"]] ∧
    oldCsvFile.rows = [["a  b", "https://a/1", "", "", "", "", "S"]] ∧
    ("a b" : String) ≠ "a  b" :=
  ⟨by decide, by decide, rfl, by decide⟩

/-- C5 (amended): migrating a store whose header (which triggers the
migration) has no `scrape_timestamp` column rewrites the file with the
current header, keeps every row in its original position, fills the new
`scrape_timestamp` column with the fixed sentinel `Unknown`, preserves
the `link`, `pubdate` and `source` values, and replaces each of the text
columns (`title`, `creator`, `category`, `description`) with its
text-normalised form rather than its verbatim value. -/
theorem migration_adds_timestamp_and_keeps_keyed_columns (f : CsvFile)
    (hmig : needsMig f.header = true)
    (hcol : idxOf (splitChar ',' f.header) "scrape_timestamp" = none) :
    (migrate_existing_csv f).header = currentHeader ∧
    (migrate_existing_csv f).rows.length = f.rows.length ∧
    (∀ (i : Nat) (row : List String), f.rows[i]? = some row →
      (migrate_existing_csv f).rows[i]? = some (migRow (splitChar ',' f.header) row) ∧
      (migRow (splitChar ',' f.header) row).get? 7 = some "Unknown" ∧
      (migRow (splitChar ',' f.header) row).get? 1 =
        some (rowGet (splitChar ',' f.header) row "link" "") ∧
      (migRow (splitChar ',' f.header) row).get? 3 =
        some (rowGet (splitChar ',' f.header) row "pubdate" "") ∧
      (migRow (splitChar ',' f.header) row).get? 6 =
        some (rowGet (splitChar ',' f.header) row "source" "Unknown") ∧
      (migRow (splitChar ',' f.header) row).get? 0 =
        some (clean_text (rowGet (splitChar ',' f.header) row "title" ""))) := by
  refine ⟨?_, ?_, ?_⟩
  · simp [migrate_existing_csv, hmig]
  · simp [migrate_existing_csv, hmig]
  · intro i row hrow
    refine ⟨?_, ?_, rfl, rfl, rfl, rfl⟩
    · have hrows : (migrate_existing_csv f).rows =
          f.rows.map (migRow (splitChar ',' f.header)) := by
        simp [migrate_existing_csv, hmig]
      rw [hrows, List.getElem?_map, hrow]
      rfl
    · simp [migRow, rowGet, hcol]

/-- C5 (witness): the amended statement applied to a one-row store whose
header lacks the `scrape_timestamp` column. -/
theorem migration_adds_timestamp_and_keeps_keyed_columns_witness :
    needsMig oldCsvFile.header = true ∧
    idxOf (splitChar ',' oldCsvFile.header) "scrape_timestamp" = none ∧
    (migrate_existing_csv oldCsvFile).header = currentHeader ∧
    (migrate_existing_csv oldCsvFile).rows.length = oldCsvFile.rows.length :=
  ⟨by decide, by decide,
   (migration_adds_timestamp_and_keeps_keyed_columns oldCsvFile (by decide) (by decide)).1,
   (migration_adds_timestamp_and_keeps_keyed_columns oldCsvFile (by decide) (by decide)).2.1⟩

/-- C6: schema migration is idempotent: a file whose header already
equals the current column list is left untouched (the trigger of line
669 does not fire on the current header), and a second migration of any
migrated file is a no-op.  In `scrape_all_sources` the migration call
(line 714) precedes every fetch call (lines 720-746). -/
theorem migration_noop_on_current_header :
    (∀ f : CsvFile, f.header = currentHeader → migrate_existing_csv f = f) ∧
    (∀ f : CsvFile, migrate_existing_csv (migrate_existing_csv f) = migrate_existing_csv f) := by
  have hno : needsMig currentHeader = false := by decide
  constructor
  · intro f hf
    simp [migrate_existing_csv, hf, hno]
  · intro f
    by_cases h : needsMig f.header = true
    · simp [migrate_existing_csv, h, hno]
    · simp [migrate_existing_csv, h]

/-- C6 (witness): the idempotence statement applied to a concrete file
with the current header. -/
theorem migration_noop_on_current_header_witness :
    (⟨currentHeader, [["t", "https://a/1", "", "", "", "", "S", "T0"]]⟩ : CsvFile).header =
      currentHeader ∧
    migrate_existing_csv ⟨currentHeader, [["t", "https://a/1", "", "", "", "", "S", "T0"]]⟩ =
      ⟨currentHeader, [["t", "https://a/1", "", "", "", "", "S", "T0"]]⟩ :=
  ⟨rfl, migration_noop_on_current_header.1 _ rfl⟩

/-- C7: for every date string that is not whitespace-only and on which
both parse attempts fail, `standardize_date` returns the cleaned input
string unchanged instead of raising. -/
theorem parse_failure_returns_cleaned_input (p : String → Option PDate) (s src : String)
    (h0 : ¬(pyStrip s = ""))
    (h1 : p (replaceStr (clean_text s) " GMT" " +0000") = none)
    (h2 : p (clean_text s) = none) :
    standardize_date p s src = clean_text s := by
  simp only [standardize_date]
  rw [if_neg h0]
  by_cases hsrc : src = "TradeWinds"
  · rw [if_pos hsrc, h1, h2]
  · rw [if_neg hsrc, h2]

/-- C7 (witness): a parser that always fails returns the cleaned input
on a concrete non-date string. -/
theorem parse_failure_returns_cleaned_input_witness :
    ¬(pyStrip "not a real date" = "") ∧
    standardize_date (fun _ => none) "not a real date" "TradeWinds" =
      clean_text "not a real date" :=
  ⟨by decide, parse_failure_returns_cleaned_input (fun _ => none) "not a real date"
      "TradeWinds" (by decide) rfl rfl⟩

/-- C8: for the TradeWinds input `22 August 2025 14:31 GMT`, the trailing
`GMT` is rewritten to `+0000` before parsing, and for any parser that
parses the rewritten string to that instant the result is the instant
converted to Europe/Athens (UTC+3 on that date) formatted as
`DD/MM/YYYY HH:MM:SS`, namely `22/08/2025 17:31:00`. -/
theorem tradewinds_gmt_date_standardized (p : String → Option PDate)
    (hp : p "22 August 2025 14:31 +0000" = some ⟨2025, 8, 22, 14, 31, 0, some 0⟩) :
    standardize_date p "22 August 2025 14:31 GMT" "TradeWinds" = "22/08/2025 17:31:00" := by
  have h1 : clean_text "22 August 2025 14:31 GMT" = "22 August 2025 14:31 GMT" := by decide
  have h2 : replaceStr "22 August 2025 14:31 GMT" " GMT" " +0000" =
      "22 August 2025 14:31 +0000" := by decide
  simp only [standardize_date]
  rw [if_neg (by decide : ¬(pyStrip "22 August 2025 14:31 GMT" = ""))]
  rw [if_pos trivial, h1, h2, hp]
  show toAthens ⟨2025, 8, 22, 14, 31, 0, some 0⟩ = "22/08/2025 17:31:00"
  decide

/-- C8 (witness): the statement applied to the concrete parser that
parses exactly the rewritten string. -/
theorem tradewinds_gmt_date_standardized_witness :
    c8Oracle "22 August 2025 14:31 +0000" = some ⟨2025, 8, 22, 14, 31, 0, some 0⟩ ∧
    standardize_date c8Oracle "22 August 2025 14:31 GMT" "TradeWinds" =
      "22/08/2025 17:31:00" :=
  ⟨by decide, tradewinds_gmt_date_standardized c8Oracle (by decide)⟩

/-- C9 (counterexample): when the single extracted category string
contains the pipe, the parts are not merely trimmed: each part is passed
through `clean_text` again, which can change it.  The raw tag
`&amp;amp;amp;|X` is extracted as the single string `&amp;|X`; the
script's pipeline yields `&, X` while the spec-worded split-trim-join
yields `&amp;, X`. -/
theorem category_parts_recleaned_not_trimmed :
    clean_text "&amp;amp;amp;|X" = "&amp;|X" ∧
    strContains "&amp;|X" "|" = true ∧
    (parse_splash_entry (fun _ => none) id pipeTagEntry).map Article.category =
      some "&, X" ∧
    specCategoryJoin "&amp;|X" = "&amp;, X" ∧
    ("&, X" : String) ≠ "&amp;, X" :=
  ⟨by decide, by decide, by decide, by decide, by decide⟩

/-- C9 (amended): for an entry whose tag list collapses to the single
cleaned string `clean_text t` containing the pipe, the category is that
string split on the pipe, each part passed through `clean_text` and then
stripped, empty parts dropped, and the rest joined with a comma and
space. -/
theorem category_pipe_split_clean_join (p : String → Option PDate)
    (soupText : String → String) (ttl lnk author t desc : String)
    (cats : Option (List String)) (pub upd : Option String)
    (hpipe : strContains (clean_text t) "|" = true) :
    (parse_splash_entry p soupText
        ⟨some ttl, some lnk, author, some [some t], cats, desc, pub, upd⟩).map
      Article.category =
      some (String.intercalate ", "
        ((((splitChar '|' (clean_text t)).map clean_text).map pyStrip).filter
          (fun c => c != ""))) := by
  have hA : (parse_splash_entry p soupText
      ⟨some ttl, some lnk, author, some [some t], cats, desc, pub, upd⟩).map
      Article.category = some (splash_category [clean_text t]) := rfl
  rw [hA, splash_category_single_pipe (clean_text t) hpipe]

/-- C9 (witness): the amended statement applied to the single category
string `Shipping|Ports`, which yields `Shipping, Ports`. -/
theorem category_pipe_split_clean_join_witness :
    strContains (clean_text "Shipping|Ports") "|" = true ∧
    (parse_splash_entry (fun _ => none) id
        ⟨some "Another long title", some "https://s/2", "",
         some [some "Shipping|Ports"], none, "", none, none⟩).map Article.category =
      some "Shipping, Ports" :=
  ⟨by decide, by
    rw [category_pipe_split_clean_join (fun _ => none) id "Another long title"
      "https://s/2" "" "Shipping|Ports" "" none none none (by decide)]
    decide⟩

/-- C4: the two cited extractors never raise past their boundary.  A
failed fetch yields the empty sequence; for Splash247 the entry loop runs
inside one `try`, so the result is exactly the parsed items of the
longest initial segment of parseable entries; for TradeWinds the
articles produced by the cards before the first failing card are an
initial segment of the final result (the per-card handler additionally
continues past failing cards rather than stopping). -/
theorem extractors_contain_failures :
    (∀ (p : String → Option PDate) (soupText : String → String),
        scrape_splash247_rss p soupText (Except.error ()) = []) ∧
    (∀ p : String → Option PDate, scrape_tradewinds_html p (Except.error ()) = []) ∧
    (∀ (p : String → Option PDate) (soupText : String → String)
        (entries : List RawEntry),
        scrape_splash247_rss p soupText (Except.ok entries) =
          (entries.takeWhile
              (fun e => (parse_splash_entry p soupText e).isSome)).filterMap
            (parse_splash_entry p soupText)) ∧
    (∀ (p : String → Option PDate) (cards : List TWCard), ∃ t,
        (twCards p (cards.takeWhile TWCard.isOk) ⟨[], []⟩).articles ++ t =
          scrape_tradewinds_html p (Except.ok cards)) := by
  refine ⟨fun _ _ => rfl, fun _ => rfl,
    fun p soupText entries => splashLoop_eq_parsed_initial_segment p soupText entries,
    fun p cards => ?_⟩
  have h := twCards_append_extends p (cards.takeWhile TWCard.isOk)
    (cards.dropWhile TWCard.isOk) ⟨[], []⟩
  rwa [List.takeWhile_append_dropWhile] at h

/-- C10: the TradeWinds extractor returns at most 20 records: the inner
loop breaks as soon as 20 articles have been accumulated and the outer
loop then stops as well. -/
theorem tradewinds_at_most_20_records (p : String → Option PDate)
    (fetched : Except Unit (List TWCard)) :
    (scrape_tradewinds_html p fetched).length ≤ 20 := by
  cases fetched with
  | error e => simp [scrape_tradewinds_html]
  | ok cards => exact twCards_length_le p cards ⟨[], []⟩ (by simp)

end Scraper
